import Mathlib

/-!
A shallow embedding of `keystone_limits.py` (keystone_limits, a Turnstile
rate-limiting integration for Keystone): the request preprocessor
`keystone_preprocess` (identity resolution, rate-limit-class resolution,
bucket aggregation into a quota-status report), the limit class
`KeystoneClassLimit` (route normalization and request filtering) and the
administrative helper `_limit_class`.

The external BucketStore (a Redis database in the source) is modelled as an
association list of string keys and string values, together with an action
trace recording every `get`/`set`/`delete`/`keys` call, mirroring the
`FakeDatabase` used by the repository's own test-suite.  External
collaborators (the identity service, turnstile's per-limit `decode` and
`bucket_class.hydrate`) are modelled as function parameters producing the
data shapes the source consumes.
-/

set_option maxHeartbeats 1000000

/-- The parameter dictionaries of the source (`ParamsDict`, decoded bucket
parameters, route args) as association lists of strings. -/
abbrev Params := List (String × String)

/-- Association-list lookup; models Python `dict.get` / the store's `get`. -/
def alistGet : List (String × String) → String → Option String
  | [], _ => none
  | (k, v) :: rest, key => if k = key then some v else alistGet rest key

/-- Association-list overwrite-or-append; models Python dict assignment and
the store's `set`. -/
def alistPut : List (String × String) → String → String → List (String × String)
  | [], key, val => [(key, val)]
  | (k, v) :: rest, key, val =>
    if k = key then (k, val) :: rest else (k, v) :: alistPut rest key val

/-- Association-list removal; models the store's `delete`. -/
def alistDel : List (String × String) → String → List (String × String)
  | [], _ => []
  | (k, v) :: rest, key => if k = key then rest else (k, v) :: alistDel rest key

/-- One call made against the BucketStore, as recorded by the repository's
own `FakeDatabase.actions` trace. -/
inductive DBAction where
  | get (key : String)
  | keys (pattern : String)
  | set (key value : String)
  | delete (key : String)
deriving DecidableEq

/-- The BucketStore (external collaborator): its key-value content plus the
trace of calls made against it. -/
structure DBState where
  fake_db : List (String × String)
  actions : List DBAction
deriving DecidableEq

/-- Character-list version of `startsWith`, kept kernel-reducible. -/
def listIsInit : List Char → List Char → Bool
  | [], _ => true
  | _ :: _, [] => false
  | c :: cs, d :: ds => c = d && listIsInit cs ds

/-- String prefix test `s.startswith(p)` on the character level. -/
def strStartsWith (s p : String) : Bool :=
  listIsInit p.toList s.toList

/-- Modelled from the spec: the BucketStore's `enumerate(prefix)`; the only
pattern the source uses is `bucket:*`, a trailing-star glob, i.e. a prefix
scan over the stored keys. -/
def dbKeysMatching (db : List (String × String)) (pat : String) : List String :=
  (db.map Prod.fst).filter (fun k => strStartsWith k (pat.dropRight 1))

/-- Store `get`: returns the stored value (if any) and records the call. -/
def dbGet (st : DBState) (key : String) : Option String × DBState :=
  (alistGet st.fake_db key,
   DBState.mk st.fake_db (st.actions ++ [DBAction.get key]))

/-- Store `set`: overwrites the key and records the call. -/
def dbSet (st : DBState) (key value : String) : DBState :=
  DBState.mk (alistPut st.fake_db key value)
    (st.actions ++ [DBAction.set key value])

/-- Store `delete`: removes the key and records the call. -/
def dbDelete (st : DBState) (key : String) : DBState :=
  DBState.mk (alistDel st.fake_db key)
    (st.actions ++ [DBAction.delete key])

/-- Store `keys(pattern)`: enumerates matching keys and records the call. -/
def dbKeys (st : DBState) (pat : String) : List String × DBState :=
  (dbKeysMatching st.fake_db pat,
   DBState.mk st.fake_db (st.actions ++ [DBAction.keys pat]))

/-- Python `s[n:]` on characters. -/
def pyDropChars (s : String) (n : Nat) : String :=
  ((s.toList).drop n).asString

/-- Python `s[a:b]` on characters (clamping, as slices do). -/
def pySlice (s : String) (a b : Nat) : String :=
  (((s.toList).drop a).take (b - a)).asString

/-- Python `s.find(c)` restricted to the one character the source searches
for: the index of the first `/`, if any. -/
def pyFindSlash (s : String) : Option Nat :=
  s.toList.findIdx? (fun c => c = '/')

/-- Python `s.upper()` (ASCII, which is all the source's units use). -/
def pyUpper (s : String) : String :=
  (s.toList.map Char.toUpper).asString

/-- Python `s.isdigit()` (ASCII digits; the empty string is not a digit
string). -/
def pyIsdigit (s : String) : Bool :=
  s.length != 0 && s.toList.all Char.isDigit

/-- A live bucket record as produced by bucket hydration: remaining message
count and absolute expiry time (`bucket.messages`, `bucket.expire`). -/
structure Bucket where
  messages : Int
  expire : Int
deriving DecidableEq

/-- A configured turnstile limit as consumed by `keystone_preprocess`:
`uuid`, `uri`, `value`, `unit`, `verbs`, `queries`, the optional
`rate_class` attribute, and the external collaborators `decode` (key to
parameter dictionary) and `hydrate` (payload to bucket record, standing for
`bucket_class.hydrate` composed with `msgpack.loads`). -/
structure TurnsLimit where
  uuid : String
  uri : String
  value : Int
  unit : String
  verbs : List String
  queries : List String
  rate_class : Option String
  decode : String → Params
  hydrate : String → Bucket

/-- One row of the quota-status report built at the end of
`keystone_preprocess` (the dict appended to its `limits` list). -/
structure LimitRow where
  verb : String
  URI : String
  regex : String
  value : Int
  unit : String
  remaining : Int
  resetTime : Int
deriving DecidableEq

/-- The keystone request context (`environ['openstack.context']`): the
fields the preprocessor reads. -/
structure OpenstackContext where
  token_id : Option String
deriving DecidableEq

/-- The WSGI request environment, restricted to the keys the source reads
and writes: `openstack.context`, the username nested under
`openstack.params` (collapsed to one optional field), `REMOTE_ADDR`,
`turnstile.keystone.user_id` and `turnstile.keystone.limitclass`. -/
structure Environ where
  context : OpenstackContext
  params_username : Option String
  remote_addr : String
  user_id : Option String
  limitclass : Option String
deriving DecidableEq

/-- The identity-service collaborators (external): token lookup returning
the token's user id, and user lookup by name returning the user id.
`none` models the not-found outcome (a raised KeyError or not-found error
in the source). -/
structure Services where
  get_token : String → Option String
  get_user_by_name : String → Option String

/-- The exceptions that can escape `keystone_preprocess`. -/
inductive PErr where
  | tokenNotFound
  | keyError
deriving DecidableEq

/-- Credential fallback of `keystone_preprocess` (the `except` branch of
lines 106-120): read the username from `openstack.params` (a missing key
raises), look it up by name, and fall back to the raw username when the
identity lookup does not find it. -/
def resolve_user_by_credentials (svc : Services) (env : Environ) :
    Except PErr String :=
  match env.params_username with
  | none => Except.error PErr.keyError
  | some username =>
    match svc.get_user_by_name username with
    | some uid => Except.ok uid
    | none => Except.ok username

/-- Identity resolution of `keystone_preprocess` (lines 106-123): a present
non-empty `token_id` is resolved through the token service - with no
handler around the lookup, a not-found token propagates as an error; a
missing or falsy `token_id` takes the credential fallback. -/
def resolve_user_id (svc : Services) (env : Environ) : Except PErr String :=
  match env.context.token_id with
  | some t =>
    if t = "" then resolve_user_by_credentials svc env
    else
      match svc.get_token t with
      | some uid => Except.ok uid
      | none => Except.error PErr.tokenNotFound
  | none => resolve_user_by_credentials svc env

/-- Class resolution of `keystone_preprocess` (lines 131-139): read
`limit-class:{id_ip}`; when absent or empty, write the default `ip-class`;
finally `environ.setdefault` makes an already-carried class authoritative
for the returned value. -/
def resolve_class (st : DBState) (env : Environ) (id_ip : String) :
    String × Environ × DBState :=
  let p := dbGet st ("limit-class:" ++ id_ip)
  let q :=
    match p.1 with
    | some s =>
      if s = "" then ("ip-class", dbSet p.2 ("limit-class:" ++ id_ip) ("ip-class"))
      else (s, p.2)
    | none => ("ip-class", dbSet p.2 ("limit-class:" ++ id_ip) ("ip-class"))
  match env.limitclass with
  | some c => (c, env, q.2)
  | none => (q.1, { env with limitclass := some q.1 }, q.2)

/-- Bucket-key indexing of `keystone_preprocess` (lines 150-161): the UUID
embedded in a bucket key is `key[7:idx]` where `idx` is the position of the
first `/`, or `key[7:]` when there is none. -/
def bucketUuid (key : String) : String :=
  match pyFindSlash key with
  | some idx => pySlice key 7 idx
  | none => pyDropChars key 7

/-- The bucket keys belonging to one limit: the `buckets` dictionary of the
source groups the enumerated keys by embedded UUID preserving order, so the
list the loop reads for `turns_lim.uuid` is exactly the enumerated keys
whose embedded UUID matches. -/
def bucketKeysFor (bkeys : List String) (uuid : String) : List String :=
  bkeys.filter (fun k => bucketUuid k = uuid)

/-- Bucket loading of `keystone_preprocess` (lines 174-187): fetch each
key's payload, silently skip a key whose payload has expired (`get`
returned nothing), and decode/hydrate the survivors in order. -/
def load_buckets (lim : TurnsLimit) (st : DBState) (keys : List String) :
    List (Params × Bucket) × DBState :=
  match keys with
  | [] => ([], st)
  | key :: rest =>
    let p := dbGet st key
    match p.1 with
    | none => load_buckets lim p.2 rest
    | some raw =>
      let r := load_buckets lim p.2 rest
      ((lim.decode key, lim.hydrate raw) :: r.1, r.2)

/-- Insertion into a sorted string list, for Python `sorted`. -/
def insertSorted (s : String) : List String → List String
  | [] => [s]
  | x :: xs => if s ≤ x then s :: x :: xs else x :: insertSorted s xs

/-- Python `sorted` on strings (insertion sort; stability is irrelevant as
string comparison is total). -/
def sortStrings (l : List String) : List String :=
  l.foldr insertSorted []

/-- Display URI of a limit (lines 190-194): when the limit declares query
parameters, extend the URI with `?a=\x7ba\x7d&b=\x7bb\x7d...` over the sorted
parameter names. -/
def displayUri (lim : TurnsLimit) : String :=
  if lim.queries = [] then lim.uri
  else
    lim.uri ++ "?" ++
      String.intercalate "&"
        ((sortStrings lim.queries).map (fun q => q ++ "=\x7b" ++ q ++ "\x7d"))

/-- Effective verb list of a limit (line 197): the configured verbs, or the
five defaults when the configuration is empty/falsy. -/
def effectiveVerbs (lim : TurnsLimit) : List String :=
  if lim.verbs = [] then ["GET", "HEAD", "POST", "PUT", "DELETE"] else lim.verbs

/-- Display unit of a limit (lines 198-200): upper-cased, with a purely
numeric unit replaced by `UNKNOWN`. -/
def displayUnit (lim : TurnsLimit) : String :=
  let u := pyUpper lim.unit
  if pyIsdigit u then "UNKNOWN" else u

/-- List minimum seeded with a first element: Python `min` over a non-empty
list. -/
def minList (x : Int) (xs : List Int) : Int :=
  List.foldl min x xs

/-- List maximum seeded with a first element: Python `max` over a non-empty
list. -/
def maxList (x : Int) (xs : List Int) : Int :=
  List.foldl max x xs

/-- Aggregation of `keystone_preprocess` (lines 202-208): with live buckets,
`remaining` is the minimum of their message counts and `resetTime` the
maximum of their expiry times; with none, the rule's full value and the
current time. -/
def aggregate (lim : TurnsLimit) (now : Int) (bl : List (Params × Bucket)) :
    Int × Int :=
  match bl with
  | [] => (lim.value, now)
  | pb :: rest =>
    (minList pb.2.messages (rest.map (fun x => x.2.messages)),
     maxList pb.2.expire (rest.map (fun x => x.2.expire)))

/-- ParamsDict lookup of the source: a known key yields its value, an
unknown key yields itself surrounded by braces. -/
def paramsLookup (params : Params) (key : String) : String :=
  match alistGet params key with
  | some v => v
  | none => "\x7b" ++ key ++ "\x7d"

/-- Scanner state for the URI formatter: output so far and, when inside a
replacement field, the characters of the field name read so far. -/
structure FmtState where
  out : List Char
  cur : Option (List Char)

/-- One scanner step of the URI formatter. -/
def vformatStep (params : Params) (st : FmtState) (c : Char) : FmtState :=
  match st.cur with
  | none =>
    if c = '\x7b' then FmtState.mk st.out (some [])
    else FmtState.mk (st.out ++ [c]) none
  | some name =>
    if c = '\x7d' then
      FmtState.mk (st.out ++ (paramsLookup params name.asString).toList) none
    else FmtState.mk st.out (some (name ++ [c]))

/-- The source's `fmt.vformat(uri, (), params)` with a `ParamsDict`:
substitute every `\x7bname\x7d` field from the parameter dictionary, leaving
unknown fields intact (substituted values are not rescanned). -/
def vformat (uri : String) (params : Params) : String :=
  let st := uri.toList.foldl (vformatStep params) (FmtState.mk [] none)
  (st.out ++
    (match st.cur with
     | some name => '\x7b' :: name
     | none => [])).asString

/-- Generic concatenation of mapped lists (the looping shape of the
row-building code). -/
def catMap {α β : Type} (g : α → List β) : List α → List β
  | [] => []
  | x :: xs => g x ++ catMap g xs

/-- Report-row construction of `keystone_preprocess` (lines 210-238): per
verb, one row per bucket when more than one bucket is live (with the
bucket's own parameter-substituted URI and counters), always followed by
the single aggregated row. -/
def build_rows (uri unitS : String) (value : Int) (verbs : List String)
    (bl : List (Params × Bucket)) (remaining resetTime : Int) :
    List LimitRow :=
  List.foldl (fun acc verb =>
    (if 1 < bl.length then
      acc ++ bl.map (fun pb =>
        LimitRow.mk verb (vformat uri pb.1) (vformat uri pb.1) value unitS
          pb.2.messages pb.2.expire)
    else acc)
    ++ [LimitRow.mk verb uri uri value unitS remaining resetTime]) [] verbs

/-- Per-limit processing of `keystone_preprocess` (lines 167-238): skip a
limit whose `rate_class` attribute (when present) differs from the resolved
class; otherwise load its buckets, aggregate, and build its report rows. -/
def process_limit (now : Int) (klass : String) (bkeys : List String)
    (st : DBState) (lim : TurnsLimit) : List LimitRow × DBState :=
  if lim.rate_class.getD klass ≠ klass then ([], st)
  else
    let lb := load_buckets lim st (bucketKeysFor bkeys lim.uuid)
    let agg := aggregate lim now lb.1
    (build_rows (displayUri lim) (displayUnit lim) lim.value
      (effectiveVerbs lim) lb.1 agg.1 agg.2, lb.2)

/-- The full preprocessor `keystone_preprocess`: identity resolution, the
`user_id:ip` principal key attached to the environment, class resolution,
bucket-key enumeration, and the per-limit report rows, threading the store
state throughout.  An unhandled identity error propagates. -/
def keystone_preprocess (svc : Services) (now : Int) (st : DBState)
    (mlimits : List TurnsLimit) (env : Environ) :
    Except PErr (Environ × DBState × List LimitRow) :=
  match resolve_user_id svc env with
  | Except.error e => Except.error e
  | Except.ok user_id =>
    let id_ip := user_id ++ ":" ++ env.remote_addr
    let env1 := { env with user_id := some id_ip }
    let rc := resolve_class st env1 id_ip
    let bk := dbKeys rc.2.2 ("bucket:*")
    let fin := List.foldl (fun acc lim =>
        let pr := process_limit now rc.1 bk.1 acc.2 lim
        (acc.1 ++ pr.1, pr.2)) (([] : List LimitRow), bk.2) mlimits
    Except.ok (rc.2.1, fin.2, fin.1)

/-- The rate-limiting class `KeystoneClassLimit`: its one configuration
attribute. -/
structure KeystoneClassLimit where
  rate_class : String
deriving DecidableEq

/-- `KeystoneClassLimit.route` (lines 257-267): strip a leading `/v1.1/` or
`/v2/` version segment (keeping the following separator), leave anything
else alone. -/
def KeystoneClassLimit.route (uri : String) (_route_args : Params) : String :=
  if strStartsWith uri ("/v1.1/") then pyDropChars uri 5
  else if strStartsWith uri ("/v2/") then pyDropChars uri 3
  else uri

/-- The two outcomes of `KeystoneClassLimit.filter`: a raised `DeferLimit`,
or a normal return (a match). -/
inductive FilterOutcome where
  | defer
  | matched
deriving DecidableEq

/-- `KeystoneClassLimit.filter` (lines 269-282): defer unless both
prior-stage markers are present and the resolved class equals this limit's
`rate_class`; on a match enrich `params` with the principal key.  The
result carries the outcome together with the `params` dictionary as left
by the call. -/
def KeystoneClassLimit.filter (lim : KeystoneClassLimit) (env : Environ)
    (params : Params) : FilterOutcome × Params :=
  match env.user_id, env.limitclass with
  | some uid, some lc =>
    if lim.rate_class ≠ lc then (FilterOutcome.defer, params)
    else (FilterOutcome.matched, alistPut params ("userid") uid)
  | some _, none => (FilterOutcome.defer, params)
  | none, _ => (FilterOutcome.defer, params)

/-- The administrative helper `_limit_class` (lines 323-354): read the
tenant's current class (`default` when absent or empty), then - only when a
truthy new class differing from the current one is given - either delete
the mapping (new class `default`) or overwrite it; the value returned is
always the pre-mutation one.  The configuration-file parsing of the source
merely connects to the store and is modelled by taking the store state
directly. -/
def _limit_class (st : DBState) (tenant : String) (klass : Option String) :
    String × DBState :=
  let p := dbGet st ("limit-class:" ++ tenant)
  let old_klass :=
    match p.1 with
    | some s => if s = "" then "default" else s
    | none => "default"
  let st2 :=
    match klass with
    | some k =>
      if k ≠ "" ∧ k ≠ old_klass then
        (if k = "default" then dbDelete p.2 ("limit-class:" ++ tenant)
         else dbSet p.2 ("limit-class:" ++ tenant) k)
      else p.2
    | none => p.2
  (old_klass, st2)


/-- The value `db.get(key) or 'default'` computed by `_limit_class` before
any mutation. -/
def storedClass (db : List (String × String)) (tenant : String) : String :=
  match alistGet db ("limit-class:" ++ tenant) with
  | some s => if s = "" then "default" else s
  | none => "default"

/-- A concrete configured limit used by witnesses: no `rate_class`
attribute, no verbs, no queries. -/
def limFix : TurnsLimit :=
  TurnsLimit.mk ("uuidA") ("/servers") 10 ("minute") [] [] none
    (fun _ => []) (fun _ => Bucket.mk 0 0)

/-- Two concrete live buckets used by witnesses: remaining counts 5 and 2,
expiries 100 and 200. -/
def blFix : List (Params × Bucket) :=
  [([("id", "a")], Bucket.mk 5 100), ([("id", "b")], Bucket.mk 2 200)]

/-! ## Helper lemmas -/

theorem alistGet_alistPut_self (db : List (String × String)) (k v : String) :
    alistGet (alistPut db k v) k = some v := by
  induction db with
  | nil => simp [alistPut, alistGet]
  | cons hd tl ih =>
    obtain ⟨k0, v0⟩ := hd
    by_cases h : k0 = k
    · simp [alistPut, alistGet, h]
    · simp [alistPut, alistGet, h, ih]

theorem minList_cons (x y : Int) (ys : List Int) :
    minList x (y :: ys) = minList (min x y) ys := rfl

theorem maxList_cons (x y : Int) (ys : List Int) :
    maxList x (y :: ys) = maxList (max x y) ys := rfl

theorem minList_eq_or_mem :
    ∀ (xs : List Int) (x : Int), minList x xs = x ∨ minList x xs ∈ xs := by
  intro xs
  induction xs with
  | nil => intro x; left; rfl
  | cons y ys ih =>
    intro x
    rw [minList_cons]
    rcases ih (min x y) with h | h
    · rcases min_choice x y with hm | hm
      · left; rw [h, hm]
      · right; rw [h, hm]; exact List.mem_cons_self y ys
    · right; exact List.mem_cons_of_mem y h

theorem minList_le_init : ∀ (xs : List Int) (x : Int), minList x xs ≤ x := by
  intro xs
  induction xs with
  | nil => intro x; exact le_refl x
  | cons y ys ih =>
    intro x
    rw [minList_cons]
    exact le_trans (ih (min x y)) (min_le_left x y)

theorem minList_le_mem :
    ∀ (xs : List Int) (x y : Int), y ∈ xs → minList x xs ≤ y := by
  intro xs
  induction xs with
  | nil => intro x y h; cases h
  | cons z zs ih =>
    intro x y h
    rw [minList_cons]
    rcases List.mem_cons.mp h with h1 | h1
    · rw [h1]; exact le_trans (minList_le_init zs (min x z)) (min_le_right x z)
    · exact ih (min x z) y h1

theorem maxList_eq_or_mem :
    ∀ (xs : List Int) (x : Int), maxList x xs = x ∨ maxList x xs ∈ xs := by
  intro xs
  induction xs with
  | nil => intro x; left; rfl
  | cons y ys ih =>
    intro x
    rw [maxList_cons]
    rcases ih (max x y) with h | h
    · rcases max_choice x y with hm | hm
      · left; rw [h, hm]
      · right; rw [h, hm]; exact List.mem_cons_self y ys
    · right; exact List.mem_cons_of_mem y h

theorem le_maxList_init : ∀ (xs : List Int) (x : Int), x ≤ maxList x xs := by
  intro xs
  induction xs with
  | nil => intro x; exact le_refl x
  | cons y ys ih =>
    intro x
    rw [maxList_cons]
    exact le_trans (le_max_left x y) (ih (max x y))

theorem le_maxList_mem :
    ∀ (xs : List Int) (x y : Int), y ∈ xs → y ≤ maxList x xs := by
  intro xs
  induction xs with
  | nil => intro x y h; cases h
  | cons z zs ih =>
    intro x y h
    rw [maxList_cons]
    rcases List.mem_cons.mp h with h1 | h1
    · rw [h1]; exact le_trans (le_max_right x z) (le_maxList_init zs (max x z))
    · exact ih (max x z) y h1

theorem load_buckets_fake_db (lim : TurnsLimit) :
    ∀ (keys : List String) (st : DBState),
      (load_buckets lim st keys).2.fake_db = st.fake_db := by
  intro keys
  induction keys with
  | nil => intro st; rfl
  | cons key rest ih =>
    intro st
    rw [load_buckets]
    cases h : alistGet st.fake_db key with
    | none => simp only [dbGet, h]; exact ih _
    | some raw => simp only [dbGet, h]; exact ih _

theorem load_buckets_list (lim : TurnsLimit) :
    ∀ (keys : List String) (st : DBState),
      (load_buckets lim st keys).1 =
        keys.filterMap (fun k => (alistGet st.fake_db k).map
          (fun raw => (lim.decode k, lim.hydrate raw))) := by
  intro keys
  induction keys with
  | nil => intro st; rfl
  | cons key rest ih =>
    intro st
    rw [load_buckets, List.filterMap_cons]
    cases h : alistGet st.fake_db key with
    | none => simp only [dbGet, h, Option.map_none']; exact ih _
    | some raw =>
      simp only [dbGet, h, Option.map_some']
      rw [ih]

theorem catMap_singleton {α β : Type} (g : α → β) :
    ∀ l : List α, catMap (fun x => [g x]) l = l.map g := by
  intro l
  induction l with
  | nil => rfl
  | cons x xs ih => simp [catMap, ih]

theorem catMap_ne_nil {α β : Type} (g : α → List β) (x : α) (xs : List α)
    (h : g x ≠ []) : catMap g (x :: xs) ≠ [] := by
  simp only [catMap]
  intro hc
  exact h (List.append_eq_nil.mp hc).1

theorem effectiveVerbs_ne_nil (lim : TurnsLimit) : effectiveVerbs lim ≠ [] := by
  unfold effectiveVerbs
  by_cases h : lim.verbs = [] <;> simp [h]

theorem build_rows_eq_catMap (uri unitS : String) (value : Int)
    (bl : List (Params × Bucket)) (remaining resetTime : Int) :
    ∀ (verbs : List String),
      build_rows uri unitS value verbs bl remaining resetTime =
        catMap (fun verb =>
          (if 1 < bl.length then
            bl.map (fun pb =>
              LimitRow.mk verb (vformat uri pb.1) (vformat uri pb.1) value unitS
                pb.2.messages pb.2.expire)
          else [])
          ++ [LimitRow.mk verb uri uri value unitS remaining resetTime]) verbs := by
  have step : ∀ (verbs : List String) (acc : List LimitRow),
      List.foldl (fun acc verb =>
        (if 1 < bl.length then
          acc ++ bl.map (fun pb =>
            LimitRow.mk verb (vformat uri pb.1) (vformat uri pb.1) value unitS
              pb.2.messages pb.2.expire)
        else acc)
        ++ [LimitRow.mk verb uri uri value unitS remaining resetTime]) acc verbs
      = acc ++ catMap (fun verb =>
          (if 1 < bl.length then
            bl.map (fun pb =>
              LimitRow.mk verb (vformat uri pb.1) (vformat uri pb.1) value unitS
                pb.2.messages pb.2.expire)
          else [])
          ++ [LimitRow.mk verb uri uri value unitS remaining resetTime]) verbs := by
    intro verbs
    induction verbs with
    | nil => intro acc; simp [catMap]
    | cons v vs ih =>
      intro acc
      rw [List.foldl_cons, ih, catMap]
      by_cases h : 1 < bl.length <;> simp [h, List.append_assoc]
  intro verbs
  exact step verbs []

theorem resolve_class_absent_eq (st : DBState) (env : Environ) (id_ip : String)
    (h1 : alistGet st.fake_db ("limit-class:" ++ id_ip) = none)
    (h2 : env.limitclass = none) :
    resolve_class st env id_ip =
      ("ip-class",
       { env with limitclass := some ("ip-class") },
       DBState.mk (alistPut st.fake_db ("limit-class:" ++ id_ip) ("ip-class"))
         (st.actions ++ [DBAction.get ("limit-class:" ++ id_ip),
                         DBAction.set ("limit-class:" ++ id_ip) ("ip-class")])) := by
  simp [resolve_class, dbGet, dbSet, h1, h2]

theorem resolve_class_found_eq (st : DBState) (env : Environ) (id_ip s : String)
    (h1 : alistGet st.fake_db ("limit-class:" ++ id_ip) = some s)
    (hs : ¬ s = "") (h2 : env.limitclass = none) :
    resolve_class st env id_ip =
      (s, { env with limitclass := some s },
       DBState.mk st.fake_db
         (st.actions ++ [DBAction.get ("limit-class:" ++ id_ip)])) := by
  simp [resolve_class, dbGet, h1, hs, h2]

theorem _limit_class_some_eq (st : DBState) (tenant k : String) :
    _limit_class st tenant (some k) =
      (storedClass st.fake_db tenant,
       if k ≠ "" ∧ k ≠ storedClass st.fake_db tenant then
         (if k = "default" then
            dbDelete (DBState.mk st.fake_db
              (st.actions ++ [DBAction.get ("limit-class:" ++ tenant)]))
              ("limit-class:" ++ tenant)
          else
            dbSet (DBState.mk st.fake_db
              (st.actions ++ [DBAction.get ("limit-class:" ++ tenant)]))
              ("limit-class:" ++ tenant) k)
       else DBState.mk st.fake_db
         (st.actions ++ [DBAction.get ("limit-class:" ++ tenant)])) := rfl

theorem _limit_class_none_eq (st : DBState) (tenant : String) :
    _limit_class st tenant none =
      (storedClass st.fake_db tenant,
       DBState.mk st.fake_db
         (st.actions ++ [DBAction.get ("limit-class:" ++ tenant)])) := rfl

theorem process_limit_pass (now : Int) (klass : String) (bkeys : List String)
    (st : DBState) (lim : TurnsLimit) (h : lim.rate_class.getD klass = klass) :
    process_limit now klass bkeys st lim =
      (build_rows (displayUri lim) (displayUnit lim) lim.value (effectiveVerbs lim)
        (load_buckets lim st (bucketKeysFor bkeys lim.uuid)).1
        (aggregate lim now (load_buckets lim st (bucketKeysFor bkeys lim.uuid)).1).1
        (aggregate lim now (load_buckets lim st (bucketKeysFor bkeys lim.uuid)).1).2,
       (load_buckets lim st (bucketKeysFor bkeys lim.uuid)).2) := by
  rw [process_limit, if_neg (by rw [h]; simp)]

/-! ## Claim theorems -/

/-- C5: Route normalization strips exactly one recognized version prefix
segment when it is followed by a path separator (so `/v1.1/foo` and
`/v2/foo` become `/foo`) and leaves every URI that does not start with such
a prefix-plus-separator unchanged (`/v1.1` and `/foo` included). -/
theorem route_version_strip :
    (KeystoneClassLimit.route ("/v1.1/foo") [] = "/foo" ∧
     KeystoneClassLimit.route ("/v2/foo") [] = "/foo" ∧
     KeystoneClassLimit.route ("/v1.1") [] = "/v1.1" ∧
     KeystoneClassLimit.route ("/foo") [] = "/foo") ∧
    (∀ (uri : String) (args : Params),
      strStartsWith uri ("/v1.1/") = false → strStartsWith uri ("/v2/") = false →
      KeystoneClassLimit.route uri args = uri) := by
  constructor
  · exact ⟨rfl, rfl, rfl, rfl⟩
  · intro uri args h1 h2
    simp [KeystoneClassLimit.route, h1, h2]

/-- C5 witness: a URI with no version prefix passes through unchanged. -/
theorem route_version_strip_witness :
    KeystoneClassLimit.route ("/spam") [] = "/spam" :=
  route_version_strip.2 ("/spam") [] rfl rfl

/-- C10: whenever `KeystoneClassLimit.filter` defers, the `params`
dictionary it was given is left completely unchanged; the `userid`
enrichment happens only on the match outcome. -/
theorem filter_defer_params_frame (lim : KeystoneClassLimit) (env : Environ)
    (params : Params)
    (h : (lim.filter env params).1 = FilterOutcome.defer) :
    (lim.filter env params).2 = params := by
  cases hu : env.user_id with
  | none => simp [KeystoneClassLimit.filter, hu]
  | some uid =>
    cases hl : env.limitclass with
    | none => simp [KeystoneClassLimit.filter, hu, hl]
    | some lc =>
      by_cases hr : lim.rate_class = lc
      · rw [KeystoneClassLimit.filter] at h
        simp [hu, hl, hr] at h
      · simp [KeystoneClassLimit.filter, hu, hl, hr]

/-- C10 witness: a deferring call (class mismatch) leaves a concrete params
dictionary untouched. -/
theorem filter_defer_params_frame_witness :
    ((KeystoneClassLimit.mk ("gold")).filter
      (Environ.mk (OpenstackContext.mk none) none ("1.2.3.4") (some ("u1"))
        (some ("silver")))
      [("a", "b")]).2 = [("a", "b")] :=
  filter_defer_params_frame _ _ _ rfl

/-- C6: `KeystoneClassLimit.filter` defers whenever either prior-stage
marker is missing or the resolved class differs from the rule's
`rate_class`; and in the status report of `keystone_preprocess`, a limit
carrying no `rate_class` attribute is included (produces rows) regardless
of the resolved class. -/
theorem rule_match_defer_and_global_include :
    (∀ (lim : KeystoneClassLimit) (env : Environ) (params : Params),
      (env.user_id = none ∨ env.limitclass = none ∨
       env.limitclass ≠ some lim.rate_class) →
      (lim.filter env params).1 = FilterOutcome.defer) ∧
    (∀ (now : Int) (klass : String) (bkeys : List String) (st : DBState)
       (lim : TurnsLimit),
      lim.rate_class = none →
      (process_limit now klass bkeys st lim).1 ≠ []) := by
  constructor
  · intro lim env params h
    cases hu : env.user_id with
    | none => simp [KeystoneClassLimit.filter, hu]
    | some uid =>
      cases hl : env.limitclass with
      | none => simp [KeystoneClassLimit.filter, hu, hl]
      | some lc =>
        rcases h with h | h | h
        · rw [hu] at h; cases h
        · rw [hl] at h; cases h
        · rw [hl] at h
          have hr : lim.rate_class ≠ lc := fun he => h (by rw [he])
          simp [KeystoneClassLimit.filter, hu, hl, hr]
  · intro now klass bkeys st lim h
    rw [process_limit_pass now klass bkeys st lim (by rw [h]; rfl)]
    simp only []
    rw [build_rows_eq_catMap]
    rcases List.exists_cons_of_ne_nil (effectiveVerbs_ne_nil lim) with ⟨v, vs, hv⟩
    rw [hv]
    apply catMap_ne_nil
    simp

/-- C6 witness: a gold-class rule defers against a silver-class request,
and an attribute-less rule still produces report rows. -/
theorem rule_match_defer_and_global_include_witness :
    ((KeystoneClassLimit.mk ("gold")).filter
        (Environ.mk (OpenstackContext.mk none) none ("1.2.3.4") (some ("u1"))
          (some ("silver"))) []).1 = FilterOutcome.defer ∧
    (process_limit 0 ("silver") [] (DBState.mk [] []) limFix).1 ≠ [] :=
  ⟨rule_match_defer_and_global_include.1 _ _ [] (Or.inr (Or.inr (by decide))),
   rule_match_defer_and_global_include.2 0 ("silver") [] (DBState.mk [] []) limFix rfl⟩

/-- C2: the claim says a token identifier the token lookup does not find
degrades to the sentinel user id; `keystone_preprocess` as written has no
handler around the token lookup, so the not-found error propagates out of
the preprocessor instead (contradicting the repository's own
`test_unknown_user`, which expects the sentinel principal
`<NONE>:127.0.0.1` and normal completion). -/
theorem keystone_preprocess_unknown_token_raises :
    keystone_preprocess (Services.mk (fun _ => none) (fun _ => none)) 0
      (DBState.mk [] []) []
      (Environ.mk (OpenstackContext.mk (some ("bad"))) none ("127.0.0.1")
        none none)
    = Except.error PErr.tokenNotFound := rfl

/-- C8: a bucket key whose payload fetch comes back absent (expired between
enumeration and fetch) is skipped: it contributes no bucket to the loaded
list, is not treated as zero remaining, and the remaining keys are
processed exactly as if the expired key were not there. -/
theorem load_buckets_skips_expired (lim : TurnsLimit) (st : DBState)
    (pre post : List String) (k : String)
    (h : alistGet st.fake_db k = none) :
    (load_buckets lim st (pre ++ k :: post)).1 =
      (load_buckets lim st (pre ++ post)).1 := by
  simp [load_buckets_list, List.filterMap_append, List.filterMap_cons, h]

/-- C8 witness: an absent key between live keys changes nothing about the
loaded buckets. -/
theorem load_buckets_skips_expired_witness :
    (load_buckets limFix (DBState.mk [("bucket:uuidA", "p")] [])
        ([] ++ ("bucket:gone") :: [("bucket:uuidA")])).1 =
      (load_buckets limFix (DBState.mk [("bucket:uuidA", "p")] [])
        ([] ++ [("bucket:uuidA")])).1 :=
  load_buckets_skips_expired limFix _ [] [("bucket:uuidA")] ("bucket:gone") rfl

/-- C4: with live buckets, the aggregated remaining count is the minimum of
the buckets' remaining counts (it is one of them and bounds all of them
below) and the aggregated reset time is the maximum of the buckets' expiry
times; with zero live buckets, the aggregate is the rule's configured value
and the current time. -/
theorem aggregate_min_max (lim : TurnsLimit) (now : Int)
    (bl : List (Params × Bucket)) :
    (bl = [] → aggregate lim now bl = (lim.value, now)) ∧
    (bl ≠ [] →
      ((aggregate lim now bl).1 ∈ bl.map (fun pb => pb.2.messages) ∧
       ∀ pb ∈ bl, (aggregate lim now bl).1 ≤ pb.2.messages) ∧
      ((aggregate lim now bl).2 ∈ bl.map (fun pb => pb.2.expire) ∧
       ∀ pb ∈ bl, pb.2.expire ≤ (aggregate lim now bl).2)) := by
  cases bl with
  | nil => exact ⟨fun _ => rfl, fun h => absurd rfl h⟩
  | cons pb rest =>
    have h1 : (aggregate lim now (pb :: rest)).1 =
        minList pb.2.messages (rest.map (fun x => x.2.messages)) := rfl
    have h2 : (aggregate lim now (pb :: rest)).2 =
        maxList pb.2.expire (rest.map (fun x => x.2.expire)) := rfl
    refine ⟨fun h => absurd h (List.cons_ne_nil pb rest), fun _ => ⟨⟨?_, ?_⟩, ⟨?_, ?_⟩⟩⟩
    · rw [h1, List.map_cons]
      rcases minList_eq_or_mem (rest.map (fun x => x.2.messages))
          pb.2.messages with h | h
      · rw [h]; exact List.mem_cons_self _ _
      · exact List.mem_cons_of_mem _ h
    · intro pb2 hmem
      rw [h1]
      rcases List.mem_cons.mp hmem with he | he
      · rw [he]; exact minList_le_init _ _
      · exact minList_le_mem _ _ _ (List.mem_map_of_mem (fun x => x.2.messages) he)
    · rw [h2, List.map_cons]
      rcases maxList_eq_or_mem (rest.map (fun x => x.2.expire))
          pb.2.expire with h | h
      · rw [h]; exact List.mem_cons_self _ _
      · exact List.mem_cons_of_mem _ h
    · intro pb2 hmem
      rw [h2]
      rcases List.mem_cons.mp hmem with he | he
      · rw [he]; exact le_maxList_init _ _
      · exact le_maxList_mem _ _ _ (List.mem_map_of_mem (fun x => x.2.expire) he)

/-- C4 witness: zero buckets give the configured value and the current
time; with the two concrete buckets the headline remaining is one of the
bucket counts. -/
theorem aggregate_min_max_witness :
    aggregate limFix 7 [] = (limFix.value, 7) ∧
    (aggregate limFix 7 blFix).1 ∈ blFix.map (fun pb => pb.2.messages) :=
  ⟨(aggregate_min_max limFix 7 []).1 rfl,
   ((aggregate_min_max limFix 7 blFix).2 (by decide)).1.1⟩

/-- C7: with more than one live bucket, the report rows for a rule are, per
verb, one row per bucket (carrying the bucket's own parameter-substituted
URI, remaining count and expiry) followed by exactly one aggregated row;
with one or zero live buckets, only the single aggregated row per verb is
emitted. -/
theorem build_rows_shape (uri unitS : String) (value : Int)
    (verbs : List String) (bl : List (Params × Bucket))
    (remaining resetTime : Int) :
    (1 < bl.length →
      build_rows uri unitS value verbs bl remaining resetTime =
        catMap (fun verb =>
          bl.map (fun pb =>
            LimitRow.mk verb (vformat uri pb.1) (vformat uri pb.1) value unitS
              pb.2.messages pb.2.expire)
          ++ [LimitRow.mk verb uri uri value unitS remaining resetTime]) verbs) ∧
    (bl.length ≤ 1 →
      build_rows uri unitS value verbs bl remaining resetTime =
        verbs.map (fun verb =>
          LimitRow.mk verb uri uri value unitS remaining resetTime)) := by
  constructor
  · intro h
    rw [build_rows_eq_catMap]
    simp only [if_pos h]
  · intro h
    rw [build_rows_eq_catMap]
    have hn : ¬ 1 < bl.length := not_lt.mpr h
    simp only [if_neg hn, List.nil_append]
    exact catMap_singleton _ verbs

/-- C7 witness: two live buckets with counts 5 and 2 and expiries 100 and
200 give two per-bucket rows plus the aggregate row for the one verb. -/
theorem build_rows_shape_witness :
    build_rows ("/x") ("MINUTE") 10 [("GET")] blFix 2 200 =
      catMap (fun verb =>
        blFix.map (fun pb =>
          LimitRow.mk verb (vformat ("/x") pb.1) (vformat ("/x") pb.1) 10
            ("MINUTE") pb.2.messages pb.2.expire)
        ++ [LimitRow.mk verb ("/x") ("/x") 10 ("MINUTE") 2 200]) [("GET")] :=
  (build_rows_shape ("/x") ("MINUTE") 10 [("GET")] blFix 2 200).1 (by decide)

/-- C3: for a principal with no stored class mapping and no class carried
on the request, class resolution returns `ip-class` and performs exactly
one store write (setting the principal's mapping to `ip-class`, after the
one read); a second resolution for the same principal performs the read
only - zero additional writes - and returns the same class name. -/
theorem resolve_class_autoprovision (st : DBState) (env env2 : Environ)
    (id_ip : String)
    (h1 : alistGet st.fake_db ("limit-class:" ++ id_ip) = none)
    (h2 : env.limitclass = none) (h3 : env2.limitclass = none) :
    (resolve_class st env id_ip).1 = "ip-class" ∧
    (resolve_class st env id_ip).2.2.actions =
      st.actions ++ [DBAction.get ("limit-class:" ++ id_ip),
                     DBAction.set ("limit-class:" ++ id_ip) ("ip-class")] ∧
    (resolve_class (resolve_class st env id_ip).2.2 env2 id_ip).1 = "ip-class" ∧
    (resolve_class (resolve_class st env id_ip).2.2 env2 id_ip).2.2.actions =
      (resolve_class st env id_ip).2.2.actions ++
        [DBAction.get ("limit-class:" ++ id_ip)] := by
  have e1 := resolve_class_absent_eq st env id_ip h1 h2
  have e2 : resolve_class (resolve_class st env id_ip).2.2 env2 id_ip =
      ("ip-class", { env2 with limitclass := some ("ip-class") },
       DBState.mk (resolve_class st env id_ip).2.2.fake_db
         ((resolve_class st env id_ip).2.2.actions ++
           [DBAction.get ("limit-class:" ++ id_ip)])) := by
    apply resolve_class_found_eq
    · rw [e1]; exact alistGet_alistPut_self _ _ _
    · decide
    · exact h3
  refine ⟨?_, ?_, ?_, ?_⟩
  · rw [e1]
  · rw [e1]
  · rw [e2]
  · rw [e2]

/-- C3 witness: the never-seen principal `42:10.0.0.1` resolves to
`ip-class` against an empty store. -/
theorem resolve_class_autoprovision_witness :
    (resolve_class (DBState.mk [] [])
        (Environ.mk (OpenstackContext.mk (some ("t"))) none ("10.0.0.1")
          none none) ("42:10.0.0.1")).1 = "ip-class" :=
  (resolve_class_autoprovision (DBState.mk [] [])
    (Environ.mk (OpenstackContext.mk (some ("t"))) none ("10.0.0.1") none none)
    (Environ.mk (OpenstackContext.mk (some ("t"))) none ("10.0.0.1") none none)
    ("42:10.0.0.1") rfl rfl rfl).1

/-- C1 counterexample: with a carried class `override` and an empty store,
class resolution does return the carried value, but it still performs a
read of the principal's `limit-class:` key and even a write of the default
`ip-class` to it - refuting the claim that no store reads or writes
happen for that key. -/
theorem resolve_class_carried_touches_store :
    (resolve_class (DBState.mk [] [])
        (Environ.mk (OpenstackContext.mk (some ("t"))) none ("1.2.3.4") none
          (some ("override"))) ("u:1.2.3.4")).1 = "override" ∧
    (resolve_class (DBState.mk [] [])
        (Environ.mk (OpenstackContext.mk (some ("t"))) none ("1.2.3.4") none
          (some ("override"))) ("u:1.2.3.4")).2.2.actions =
      [DBAction.get ("limit-class:u:1.2.3.4"),
       DBAction.set ("limit-class:u:1.2.3.4") ("ip-class")] :=
  ⟨rfl, rfl⟩

/-- C1 (amended): with a carried class, class resolution returns that value
unchanged and leaves the request environment untouched, but it still
performs one read of the principal's `limit-class:` key and, exactly when
that key holds no non-empty value, one write of the default `ip-class`. -/
theorem resolve_class_carried_passthrough (st : DBState) (env : Environ)
    (id_ip c : String) (h : env.limitclass = some c) :
    (resolve_class st env id_ip).1 = c ∧
    (resolve_class st env id_ip).2.1 = env ∧
    (resolve_class st env id_ip).2.2.actions =
      st.actions ++
        (if (alistGet st.fake_db ("limit-class:" ++ id_ip)).getD "" = "" then
          [DBAction.get ("limit-class:" ++ id_ip),
           DBAction.set ("limit-class:" ++ id_ip) ("ip-class")]
        else [DBAction.get ("limit-class:" ++ id_ip)]) := by
  cases hdb : alistGet st.fake_db ("limit-class:" ++ id_ip) with
  | none => simp [resolve_class, dbGet, dbSet, h, hdb]
  | some s =>
    by_cases hs : s = ""
    · simp [resolve_class, dbGet, dbSet, h, hdb, hs]
    · simp [resolve_class, dbGet, dbSet, h, hdb, hs]

/-- C1 witness: with a stored class present, the carried `override` is
returned unchanged. -/
theorem resolve_class_carried_passthrough_witness :
    (resolve_class (DBState.mk [("limit-class:u", "gold")] [])
        (Environ.mk (OpenstackContext.mk none) none ("ip") none
          (some ("override"))) ("u")).1 = "override" :=
  (resolve_class_carried_passthrough _ _ ("u") ("override") rfl).1

/-- C9: the administrative `_limit_class` returns the class stored before
any mutation (the literal `default` when no entry exists); setting the
literal `default` while a different class is stored deletes the mapping
(one read then one delete, no write); passing no class or the stored class
leaves the store unchanged. -/
theorem limit_class_admin_contract (st : DBState) (tenant : String)
    (klass : Option String) :
    ((_limit_class st tenant klass).1 = storedClass st.fake_db tenant) ∧
    (klass = some ("default") → storedClass st.fake_db tenant ≠ "default" →
      (_limit_class st tenant klass).2.fake_db =
        alistDel st.fake_db ("limit-class:" ++ tenant) ∧
      (_limit_class st tenant klass).2.actions =
        st.actions ++ [DBAction.get ("limit-class:" ++ tenant),
                       DBAction.delete ("limit-class:" ++ tenant)]) ∧
    ((klass = none ∨ klass = some (storedClass st.fake_db tenant)) →
      (_limit_class st tenant klass).2.fake_db = st.fake_db ∧
      (_limit_class st tenant klass).2.actions =
        st.actions ++ [DBAction.get ("limit-class:" ++ tenant)]) := by
  refine ⟨?_, ?_, ?_⟩
  · cases klass with
    | none => rw [_limit_class_none_eq]
    | some k => rw [_limit_class_some_eq]
  · intro hk hne
    subst hk
    rw [_limit_class_some_eq]
    rw [if_pos ⟨by decide, Ne.symm hne⟩, if_pos rfl]
    exact ⟨rfl, by simp [dbDelete, List.append_assoc]⟩
  · intro hor
    rcases hor with hn | hs
    · subst hn
      rw [_limit_class_none_eq]
      exact ⟨rfl, rfl⟩
    · subst hs
      rw [_limit_class_some_eq]
      have hno : ¬ (storedClass st.fake_db tenant ≠ "" ∧
          storedClass st.fake_db tenant ≠ storedClass st.fake_db tenant) :=
        fun hcon => hcon.2 rfl
      rw [if_neg hno]
      exact ⟨rfl, rfl⟩

/-- C9 witness: resetting tenant `spam` (stored class `old_class`) to
`default` empties the store. -/
theorem limit_class_admin_contract_witness :
    (_limit_class (DBState.mk [("limit-class:spam", "old_class")] [])
        ("spam") (some ("default"))).2.fake_db = [] :=
  (((limit_class_admin_contract (DBState.mk [("limit-class:spam", "old_class")] [])
      ("spam") (some ("default"))).2.1 rfl (by decide)).1).trans rfl
